import Mathlib

set_option maxRecDepth 8000

/-!
Shallow embedding of the komiesp32/esp32-ssd1306-videoplayer repository.

The repository contains two Arduino sketches:
* `src/wifi-videoplayer.ino` — the WiFi uploader + player (modelled in
  namespace `Player`);
* `src/unnamed/part_000` — the earlier standalone player sketch (modelled in
  namespace `Sketch`).

Bytes are modelled as `Nat` (values 0..255 in every concrete input), files as
a byte list plus a read cursor, the SSD1306 tile sink as a list of recorded
`drawTile` calls, and `millis()` timestamps as `Nat` with explicit 32-bit
wrap-around subtraction.
-/

/-- A LittleFS file opened for reading: its contents and the read cursor.
`File::read(buf, n)` returns `min n (size - pos)` bytes and advances the
cursor; `File::seek(off, SeekSet)` sets the cursor. -/
structure MFile where
  data : List Nat
  pos : Nat
deriving Repr, DecidableEq

/-- Model of `file.read(buf, n)`: the bytes obtained and the advanced file. -/
def fread (fl : MFile) (n : Nat) : List Nat × MFile :=
  let bs := (fl.data.drop fl.pos).take n
  (bs, { fl with pos := fl.pos + bs.length })

/-- Model of `file.seek(off, SeekSet)`. -/
def fseek (fl : MFile) (off : Nat) : MFile :=
  { fl with pos := off }

/-- Unsigned 32-bit subtraction `a - b` as performed on `uint32_t`
(`millis()` arithmetic): `(a - b) mod 2^32`. -/
def sub32 (a b : Nat) : Nat :=
  (a % 4294967296 + 4294967296 - b % 4294967296) % 4294967296

/-- The decoded `MovieHeader` struct (packed, 32 bytes in the stream):
`char magic[8]; uint16_t width; uint16_t height; uint32_t fps_milli;
uint32_t frame_count; uint8_t flags; uint8_t reserved[11];`. -/
structure MovieHeader where
  magic : List Nat
  width : Nat
  height : Nat
  fps_milli : Nat
  frame_count : Nat
  flags : Nat
deriving Repr, DecidableEq

/-- The C string literal `"SSD1306V1"` (9 characters, no terminator shown):
`S S D 1 3 0 6 V 1`. -/
def magicRef : List Nat := [83, 83, 68, 49, 51, 48, 54, 86, 49]

/-- Model of `strncmp(a, b, n) == 0`: compare at most `n` bytes, stopping
early at the first difference or at a common NUL byte. -/
def strncmpEq : List Nat → List Nat → Nat → Bool
  | _, _, 0 => true
  | a :: as, b :: bs, n + 1 =>
      if a ≠ b then false else if a = 0 then true else strncmpEq as bs n
  | _, _, _ + 1 => false

/-- Decoding the little-endian packed 32-byte header read into a
`MovieHeader` struct (ESP32 is little-endian; the struct is packed). -/
def decodeHeader (bs : List Nat) : MovieHeader :=
  { magic := bs.take 8
    width := bs.getD 8 0 + 256 * bs.getD 9 0
    height := bs.getD 10 0 + 256 * bs.getD 11 0
    fps_milli := bs.getD 12 0 + 256 * bs.getD 13 0 + 65536 * bs.getD 14 0
      + 16777216 * bs.getD 15 0
    frame_count := bs.getD 16 0 + 256 * bs.getD 17 0 + 65536 * bs.getD 18 0
      + 16777216 * bs.getD 19 0
    flags := bs.getD 20 0 }

/-- One recorded `u8x8.drawTile(x, page, cnt, ptr)` call: `cnt` 8x8 tiles,
reading `8 * cnt` bytes from the frame buffer at the given offset. -/
structure Tile where
  x : Nat
  page : Nat
  cnt : Nat
  bytes : List Nat
deriving Repr, DecidableEq

/-- The per-frame drawing loop shared by both sketches:
`const uint8_t pages = hdr.height / 8; const uint8_t tilesPerRow =
hdr.width / 8; for page in 0..pages: drawTile(0, page, tilesPerRow,
buf + page*width)`. Both counters are `uint8_t`, so `height / 8` and
`width / 8` wrap modulo 256 (reachable: the header fields are `uint16_t`,
and e.g. height = 2048 passes the `% 8` check). Each call hands
`8 * tilesPerRow` buffer bytes to the sink. -/
def drawFrame (w h : Nat) (buf : List Nat) : List Tile :=
  (List.range (h / 8 % 256)).map fun page =>
    { x := 0
      page := page
      cnt := w / 8 % 256
      bytes := (buf.drop (page * w)).take (8 * (w / 8 % 256)) }

/-- A file operation issued by the playback loop (for stating which reads
and seeks a tick performs). -/
inductive FOp where
  | fread (requested got : Nat)
  | fseek (off : Nat)
deriving Repr, DecidableEq

/-- Little-endian 16-bit serialization (test-input construction only). -/
def le16 (n : Nat) : List Nat := [n % 256, n / 256 % 256]

/-- Little-endian 32-bit serialization (test-input construction only). -/
def le32 (n : Nat) : List Nat :=
  [n % 256, n / 256 % 256, n / 65536 % 256, n / 16777216 % 256]

/-- Build the 32 header bytes the Python converter writes (test-input
construction only): 8 magic bytes, width, height, fps*1000, frame count,
flags, 11 zero reserved bytes. -/
def mkHeader (w h fps fc flags : Nat) : List Nat :=
  magicRef.take 8 ++ le16 w ++ le16 h ++ le32 fps ++ le32 fc ++ [flags]
    ++ List.replicate 11 0

namespace Player

/-- `fpsMilliToMs` from `wifi-videoplayer.ino`:
`if (fps_milli == 0) return 66; return (1000000ULL + fps_milli/2) / fps_milli;`. -/
def fpsMilliToMs (fps_milli : Nat) : Nat :=
  if fps_milli = 0 then 66
  else (1000000 + fps_milli / 2) / fps_milli

/-- `readHeaderFromFile` from `wifi-videoplayer.ino`: seek to 0, read 32
bytes; fail on a short read, on `strncmp(magic, "SSD1306V1", 8) != 0`, or on
`height % 8 != 0`. -/
def readHeaderFromFile (fl : MFile) : Option MovieHeader × MFile :=
  let r := fread (fseek fl 0) 32
  if r.1.length ≠ 32 then (none, r.2)
  else
    let h := decodeHeader r.1
    if ¬ strncmpEq h.magic magicRef 8 then (none, r.2)
    else if h.height % 8 ≠ 0 then (none, r.2)
    else (some h, r.2)

/-- The player's global state: the open file handle `f` (`none` = closed),
the global `hdr`, `frameSize`, `frameDelayMs`, `hasHeader`, and the static
`lastMs` of `loop()`. -/
structure PState where
  f : Option MFile
  hdr : MovieHeader
  frameSize : Nat
  frameDelayMs : Nat
  hasHeader : Bool
  lastMs : Nat
deriving Repr, DecidableEq

/-- The globals at boot: `File f;` (closed), `MovieHeader hdr{};` (zeroed),
`frameSize = 0`, `frameDelayMs = 66`, `hasHeader = false`, `lastMs = 0`. -/
def initState : PState :=
  { f := none
    hdr := { magic := List.replicate 8 0
             width := 0
             height := 0
             fps_milli := 0
             frame_count := 0
             flags := 0 }
    frameSize := 0
    frameDelayMs := 66
    hasHeader := false
    lastMs := 0 }

/-- `openMovieFileAndReadHeader()` from `wifi-videoplayer.ino`, as a function
of the stored `/movie.bin` contents (`none` = file absent) and the previous
globals. Returns the function's boolean result and the updated globals. -/
def openMovieFileAndReadHeader (fsData : Option (List Nat)) (st : PState) :
    Bool × PState :=
  match fsData with
  | none => (false, { st with f := none, hasHeader := false })
  | some d =>
    let fl : MFile := { data := d, pos := 0 }
    let r := readHeaderFromFile fl
    match r.1 with
    | none =>
        (true, { st with
                  f := some (fseek r.2 0)
                  hdr := { st.hdr with
                            width := 128
                            height := 64
                            fps_milli := 15000
                            frame_count := 0
                            flags := 0 }
                  frameSize := 128 * (64 / 8)
                  frameDelayMs := 1000 / 15
                  hasHeader := false })
    | some h =>
        (true, { st with
                  f := some (fseek r.2 32)
                  hdr := h
                  frameSize := h.width * (h.height / 8)
                  frameDelayMs := fpsMilliToMs h.fps_milli
                  hasHeader := true })

/-- One pass of the playback part of `loop()` from `wifi-videoplayer.ino` at
time `now`: the updated globals, the `drawTile` calls issued, and the file
operations performed. `loop` returns immediately when `f` is closed or when
`now - lastMs < frameDelayMs`; otherwise it sets `lastMs = now`, reads
`frameSize` bytes, on a short read seeks back to the first frame and retries
once, and draws only a fully read frame. -/
def loop (st : PState) (now : Nat) : PState × List Tile × List FOp :=
  match st.f with
  | none => (st, [], [])
  | some fl =>
    if sub32 now st.lastMs < st.frameDelayMs then (st, [], [])
    else
      let r1 := fread fl st.frameSize
      if r1.1.length < st.frameSize then
        let off := if st.hasHeader then 32 else 0
        let r2 := fread (fseek r1.2 off) st.frameSize
        if r2.1.length < st.frameSize then
          ({ st with lastMs := now, f := some r2.2 }, [],
            [FOp.fread st.frameSize r1.1.length, FOp.fseek off,
             FOp.fread st.frameSize r2.1.length])
        else
          ({ st with lastMs := now, f := some r2.2 },
            drawFrame st.hdr.width st.hdr.height r2.1,
            [FOp.fread st.frameSize r1.1.length, FOp.fseek off,
             FOp.fread st.frameSize r2.1.length])
      else
        ({ st with lastMs := now, f := some r1.2 },
          drawFrame st.hdr.width st.hdr.height r1.1,
          [FOp.fread st.frameSize r1.1.length])

/-- Iterate `loop` over a list of tick times, collecting all `drawTile`
calls and file operations. -/
def runTicks (st : PState) : List Nat → PState × List Tile × List FOp
  | [] => (st, [], [])
  | n :: ns =>
    let r1 := loop st n
    let r2 := runTicks r1.1 ns
    (r2.1, r1.2.1 ++ r2.2.1, r1.2.2 ++ r2.2.2)

/-- Whole-device state: the player globals, the stored `/movie.bin`
contents (`none` = absent), and the upload handler's `static File
uploadFile` write handle (`none` = not open, `some d` = open with `d`
written so far). -/
structure SysState where
  ps : PState
  movieData : Option (List Nat)
  uploadFile : Option (List Nat)
deriving Repr, DecidableEq

/-- An event processed by the cooperative `loop()`/`handleClient()` cycle:
a playback tick, or one of `handleUpload`'s `UPLOAD_FILE_START` /
`UPLOAD_FILE_WRITE` / `UPLOAD_FILE_END` callbacks. -/
inductive Ev where
  | tick (now : Nat)
  | uploadStart
  | uploadWrite (chunk : List Nat)
  | uploadEnd
deriving Repr, DecidableEq

/-- One cooperative step. `uploadStart` is `UPLOAD_FILE_START`: close the
playing file `f`, remove `/movie.bin`, open it for writing. `uploadWrite`
appends a chunk. `uploadEnd` closes the upload file and re-runs
`openMovieFileAndReadHeader` (with the code's legacy retry if that open
fails). `tick` is one pass of the playback part of `loop()`. -/
def handleEv (s : SysState) : Ev → SysState × List Tile
  | Ev.tick now =>
      let r := loop s.ps now
      ({ s with ps := r.1 }, r.2.1)
  | Ev.uploadStart =>
      ({ ps := { s.ps with f := none }
         movieData := none
         uploadFile := some [] }, [])
  | Ev.uploadWrite chunk =>
      ({ s with uploadFile := s.uploadFile.map (fun d => d ++ chunk) }, [])
  | Ev.uploadEnd =>
      let md := match s.uploadFile with
        | some d => some d
        | none => s.movieData
      let r := openMovieFileAndReadHeader md s.ps
      let ps2 :=
        if r.1 then r.2
        else
          match md with
          | some d =>
              { r.2 with
                 f := some { data := d, pos := 0 }
                 hdr := { r.2.hdr with
                           width := 128
                           height := 64
                           fps_milli := 15000
                           flags := 0 }
                 frameSize := 128 * (64 / 8)
                 frameDelayMs := 1000 / 15
                 hasHeader := false }
          | none => r.2
      ({ ps := ps2
         movieData := md
         uploadFile := none }, [])

/-- Run a list of events, collecting every `drawTile` call issued. -/
def runEvs (s : SysState) : List Ev → SysState × List Tile
  | [] => (s, [])
  | e :: es =>
    let r1 := handleEv s e
    let r2 := runEvs r1.1 es
    (r2.1, r1.2 ++ r2.2)

end Player

namespace Sketch

/-- `readHeader()` from `src/unnamed/part_000`: read 32 bytes into the
global `hdr`; fail on short read, magic mismatch, or `height % 8 != 0`.
On success it defaults `fps_milli` 0 to 15000, sets
`frameSize = width * (height/8)` and
`frameDelayMs = 1000000 / fps_milli` clamped up to 1.
Returns `(hdr, frameSize, frameDelayMs)` on success. -/
def readHeader (fl : MFile) : Option (MovieHeader × Nat × Nat) × MFile :=
  let r := fread fl 32
  if r.1.length ≠ 32 then (none, r.2)
  else
    let h := decodeHeader r.1
    if ¬ strncmpEq h.magic magicRef 8 then (none, r.2)
    else if h.height % 8 ≠ 0 then (none, r.2)
    else
      let h2 := if h.fps_milli = 0 then { h with fps_milli := 15000 } else h
      let d0 := 1000000 / h2.fps_milli
      (some (h2, h2.width * (h2.height / 8), if d0 = 0 then 1 else d0), r.2)

/-- The standalone sketch's playback session: open file, `hdr`, `frameSize`,
`frameDelayMs`, `hasHeader`, `lastMs`. -/
structure SState where
  fl : MFile
  hdr : MovieHeader
  frameSize : Nat
  frameDelayMs : Nat
  hasHeader : Bool
  lastMs : Nat
deriving Repr, DecidableEq

/-- The header/legacy part of `setup()` from `part_000` on an opened
`/movie.bin` with contents `d`: run `readHeader`; on failure seek back to 0
and install the legacy defaults 128x64, 15 fps, `frameDelayMs = 1000/15`. -/
def setupOpen (d : List Nat) : SState :=
  let fl : MFile := { data := d, pos := 0 }
  let r := readHeader fl
  match r.1 with
  | some h =>
      { fl := r.2
        hdr := h.1
        frameSize := h.2.1
        frameDelayMs := h.2.2
        hasHeader := true
        lastMs := 0 }
  | none =>
      { fl := fseek r.2 0
        hdr := { magic := d.take 8
                 width := 128
                 height := 64
                 fps_milli := 15000
                 frame_count := 0
                 flags := 0 }
        frameSize := 128 * (64 / 8)
        frameDelayMs := 1000 / 15
        hasHeader := false
        lastMs := 0 }

/-- One pass of `loop()` from `part_000` at time `now`. `junk` models the
contents of the freshly allocated (uninitialized) frame buffer
`new uint8_t[frameSize]`. Unlike the WiFi player, the retry read's result is
not checked: the frame buffer is drawn unconditionally. -/
def loop (s : SState) (now : Nat) (junk : List Nat) : SState × List Tile :=
  if sub32 now s.lastMs < s.frameDelayMs then (s, [])
  else
    let r1 := fread s.fl s.frameSize
    if r1.1.length < s.frameSize then
      let off := if s.hasHeader then 32 else 0
      let r2 := fread (fseek r1.2 off) s.frameSize
      let buf := r2.1 ++ (r1.1 ++ junk.drop r1.1.length).drop r2.1.length
      ({ s with lastMs := now, fl := r2.2 },
        drawFrame s.hdr.width s.hdr.height buf)
    else
      ({ s with lastMs := now, fl := r1.2 },
        drawFrame s.hdr.width s.hdr.height r1.1)

end Sketch

/-! ### Generic helper lemmas -/

theorem strncmpEq_true_iff : ∀ (n : Nat) (a r : List Nat), n ≤ a.length →
    n ≤ r.length → (∀ x ∈ r.take n, x ≠ 0) →
    (strncmpEq a r n = true ↔ a.take n = r.take n)
  | 0, a, r, _, _, _ => by simp [strncmpEq]
  | n + 1, [], r, ha, _, _ => by simp at ha
  | n + 1, a0 :: as, [], _, hr, _ => by simp at hr
  | n + 1, a0 :: as, r0 :: rs, ha, hr, hz => by
    have hr0 : r0 ≠ 0 := hz r0 (by simp)
    by_cases h : a0 = r0
    · subst h
      have ih := strncmpEq_true_iff n as rs (by simpa using ha)
        (by simpa using hr) (fun x hx => hz x (by simp [hx]))
      simp [strncmpEq, hr0, ih]
    · simp [strncmpEq, h]

theorem getD_append_lt (l₁ l₂ : List Nat) (i : Nat) (h : i < l₁.length) :
    (l₁ ++ l₂).getD i 0 = l₁.getD i 0 := by
  simp [List.getD_eq_getElem?_getD, List.getElem?_append, h]

theorem getD_append_ge (l₁ l₂ : List Nat) (i : Nat) (h : l₁.length ≤ i) :
    (l₁ ++ l₂).getD i 0 = l₂.getD (i - l₁.length) 0 := by
  simp [List.getD_eq_getElem?_getD, List.getElem?_append_right h]

theorem getD_take_lt (l : List Nat) (n i : Nat) (h : i < n) :
    (l.take n).getD i 0 = l.getD i 0 := by
  simp [List.getD_eq_getElem?_getD, List.getElem?_take, h]

/-- Concatenating the page rows that `drawFrame` hands to `drawTile`
reproduces the frame buffer (for widths that are a multiple of 8 and a
buffer of exactly `width * pages` bytes). -/
theorem flatten_rows (w : Nat) (hw : w % 8 = 0) : ∀ (n : Nat) (buf : List Nat),
    buf.length = w * n →
    ((List.range n).map fun page =>
      (buf.drop (page * w)).take (8 * (w / 8))).flatten = buf
  | 0, buf, hlen => by
    have hb : buf = [] := List.length_eq_zero.mp (by simpa using hlen)
    subst hb
    simp
  | n + 1, buf, hlen => by
    have h8 : 8 * (w / 8) = w := Nat.mul_div_cancel' (Nat.dvd_of_mod_eq_zero hw)
    have hlen2 : buf.length = w * n + w := by
      rw [hlen]; ring
    have ih := flatten_rows w hw n (buf.drop w)
      (by rw [List.length_drop, hlen2]; omega)
    rw [List.range_succ_eq_map, List.map_cons, List.map_map, List.flatten_cons]
    have hcomp : ((fun page => (buf.drop (page * w)).take (8 * (w / 8)))
        ∘ Nat.succ) = fun page => ((buf.drop w).drop (page * w)).take (8 * (w / 8)) := by
      funext p
      simp only [Function.comp, List.drop_drop]
      congr 2
      simp [Nat.succ_eq_add_one]
      ring
    rw [hcomp, ih]
    simp only [Nat.zero_mul, List.drop_zero, h8]
    exact List.take_append_drop w buf

theorem drawFrame_flatten (w h : Nat) (buf : List Nat) (hw : w % 8 = 0)
    (hwlt : w < 2048) (hhlt : h < 2048)
    (hlen : buf.length = w * (h / 8)) :
    ((drawFrame w h buf).map Tile.bytes).flatten = buf := by
  unfold drawFrame
  have e1 : w / 8 % 256 = w / 8 := Nat.mod_eq_of_lt (by omega)
  have e2 : h / 8 % 256 = h / 8 := Nat.mod_eq_of_lt (by omega)
  rw [e1, e2, List.map_map]
  exact flatten_rows w hw (h / 8) buf hlen

/-- Rounded division by adding half the divisor equals mathematical
round-half-up of `a / b`. -/
theorem div_add_half_eq_round (a b : Nat) (hb : 0 < b) :
    (a + b / 2) / b = (2 * a + b) / (2 * b) := by
  have hd := Nat.div_add_mod (a + b / 2) b
  have hm : (a + b / 2) % b < b := Nat.mod_lt _ hb
  symm
  apply Nat.div_eq_of_lt_le
  · have e1 : (a + b / 2) / b * (2 * b) = 2 * (b * ((a + b / 2) / b)) := by ring
    rw [e1]
    generalize b * ((a + b / 2) / b) = P at hd
    omega
  · have e2 : ((a + b / 2) / b + 1) * (2 * b) = 2 * (b * ((a + b / 2) / b)) + 2 * b := by
      ring
    rw [e2]
    generalize b * ((a + b / 2) / b) = P at hd
    omega

/-- Full case analysis of `Player.readHeaderFromFile`: it succeeds exactly
when the file has at least 32 bytes, `strncmp` accepts the magic, and the
decoded height is a multiple of 8; the cursor ends after the header read. -/
theorem readHeaderFromFile_spec (fl : MFile) :
    Player.readHeaderFromFile fl =
      ((if 32 ≤ fl.data.length
           ∧ strncmpEq (decodeHeader (fl.data.take 32)).magic magicRef 8 = true
           ∧ (decodeHeader (fl.data.take 32)).height % 8 = 0
        then some (decodeHeader (fl.data.take 32)) else none),
       { data := fl.data, pos := (fl.data.take 32).length }) := by
  unfold Player.readHeaderFromFile
  simp only [fseek, fread, List.drop_zero]
  by_cases h1 : 32 ≤ fl.data.length
  · have hl : (fl.data.take 32).length = 32 := by
      rw [List.length_take]; omega
    by_cases hB : strncmpEq (decodeHeader (fl.data.take 32)).magic magicRef 8 = true
    · by_cases hC : (decodeHeader (fl.data.take 32)).height % 8 = 0
      · simp [hl, hB, hC, h1]
      · simp [hl, hB, hC, h1]
    · simp [hl, hB, h1]
  · have hl : (fl.data.take 32).length = fl.data.length := by
      rw [List.length_take]; omega
    simp [hl, h1, show fl.data.length ≠ 32 by omega]

/-- `Sketch.readHeader` leaves the cursor where the 32-byte read left it,
in every branch. -/
theorem sketch_readHeader_snd (fl : MFile) :
    (Sketch.readHeader fl).2 = (fread fl 32).2 := by
  simp only [Sketch.readHeader]
  split_ifs <;> rfl

/-- In `part_000`, every successfully decoded header yields
`frameDelayMs ≥ 1` (the `if (frameDelayMs == 0) frameDelayMs = 1;` clamp). -/
theorem sketch_readHeader_delay_pos (d : List Nat) (m : MovieHeader) (fs dl : Nat)
    (hr : (Sketch.readHeader ⟨d, 0⟩).1 = some (m, fs, dl)) : 1 ≤ dl := by
  simp only [Sketch.readHeader] at hr
  split_ifs at hr with h1 h2 h3 h4 h5 h6 <;>
    first
      | (dsimp only at hr
         simp only [Option.some.injEq, Prod.mk.injEq] at hr
         rcases hr with ⟨-, -, h⟩
         subst h
         first
           | exact Nat.le_refl 1
           | exact Nat.pos_of_ne_zero (by assumption))
      | simp at hr

namespace Player

/-- `loop` does nothing when the file handle is closed. -/
theorem loop_closed (st : PState) (now : Nat) (h : st.f = none) :
    loop st now = (st, [], []) := by
  unfold loop
  rw [h]

/-- `loop` does nothing when `now - lastMs < frameDelayMs`. -/
theorem loop_early (st : PState) (fl : MFile) (now : Nat) (h : st.f = some fl)
    (hg : sub32 now st.lastMs < st.frameDelayMs) :
    loop st now = (st, [], []) := by
  unfold loop
  rw [h]
  simp [hg]

/-- A gated tick whose first read returns a full frame: `lastMs` is set,
the cursor advances by `frameSize`, the frame is drawn, and the only file
operation is that read. -/
theorem loop_full (st : PState) (fl : MFile) (now : Nat) (h : st.f = some fl)
    (hg : ¬ sub32 now st.lastMs < st.frameDelayMs)
    (hfull : ¬ fl.data.length - fl.pos < st.frameSize) :
    loop st now =
      ({ st with
          lastMs := now
          f := some { data := fl.data
                      pos := fl.pos + ((fl.data.drop fl.pos).take st.frameSize).length } },
        drawFrame st.hdr.width st.hdr.height ((fl.data.drop fl.pos).take st.frameSize),
        [FOp.fread st.frameSize ((fl.data.drop fl.pos).take st.frameSize).length]) := by
  unfold loop
  rw [h]
  simp [hg, fread, hfull, List.length_take, List.length_drop]

/-- A gated tick whose first read is short and whose retry read is also
short: seek to the first-frame offset, retry once, draw nothing. -/
theorem loop_short_short (st : PState) (fl : MFile) (now : Nat)
    (h : st.f = some fl)
    (hg : ¬ sub32 now st.lastMs < st.frameDelayMs)
    (hshort : fl.data.length - fl.pos < st.frameSize)
    (hshort2 : fl.data.length - (if st.hasHeader then 32 else 0) < st.frameSize) :
    loop st now =
      ({ st with
          lastMs := now
          f := some { data := fl.data
                      pos := (if st.hasHeader then 32 else 0)
                        + ((fl.data.drop (if st.hasHeader then 32 else 0)).take
                            st.frameSize).length } },
        [],
        [FOp.fread st.frameSize ((fl.data.drop fl.pos).take st.frameSize).length,
         FOp.fseek (if st.hasHeader then 32 else 0),
         FOp.fread st.frameSize
           ((fl.data.drop (if st.hasHeader then 32 else 0)).take st.frameSize).length]) := by
  unfold loop
  rw [h]
  simp [hg, fread, fseek, hshort, hshort2, List.length_take, List.length_drop]

/-- A gated tick whose first read is short but whose retry read returns a
full frame: seek, retry, draw the retried frame. -/
theorem loop_short_full (st : PState) (fl : MFile) (now : Nat)
    (h : st.f = some fl)
    (hg : ¬ sub32 now st.lastMs < st.frameDelayMs)
    (hshort : fl.data.length - fl.pos < st.frameSize)
    (hfull2 : ¬ fl.data.length - (if st.hasHeader then 32 else 0) < st.frameSize) :
    loop st now =
      ({ st with
          lastMs := now
          f := some { data := fl.data
                      pos := (if st.hasHeader then 32 else 0)
                        + ((fl.data.drop (if st.hasHeader then 32 else 0)).take
                            st.frameSize).length } },
        drawFrame st.hdr.width st.hdr.height
          ((fl.data.drop (if st.hasHeader then 32 else 0)).take st.frameSize),
        [FOp.fread st.frameSize ((fl.data.drop fl.pos).take st.frameSize).length,
         FOp.fseek (if st.hasHeader then 32 else 0),
         FOp.fread st.frameSize
           ((fl.data.drop (if st.hasHeader then 32 else 0)).take st.frameSize).length]) := by
  unfold loop
  rw [h]
  simp [hg, fread, fseek, hshort, hfull2, List.length_take, List.length_drop]

end Player

/-! ### Claim C3 -/

/-- Claim C3, amended. In `wifi-videoplayer.ino`, for every valid header
with nonzero `fps_milli` the frame delay is the round-half-up value
`round(1_000_000 / fps_milli)` (computed as `(1000000 + fps_milli/2) /
fps_milli`), with no minimum clamp — `fps_milli = 2000001` already gives 0 —
and `fps_milli = 0` yields the fixed fallback 66 rather than the 67 that
"treat 0 as 15000 and round" would give; `fps_milli = 15000` gives 67.
`part_000` instead truncates `1_000_000 / fps_milli` (defaulting 0 to 15000)
and clamps the result up to 1, giving 66 for `fps_milli = 15000`. -/
theorem claimC3_frame_delay (fm : Nat) (hfm : 0 < fm) :
    Player.fpsMilliToMs fm = (2 * 1000000 + fm) / (2 * fm) ∧
    Player.fpsMilliToMs 15000 = 67 ∧
    Player.fpsMilliToMs 0 = 66 ∧
    Player.fpsMilliToMs 2000001 = 0 ∧
    (Player.openMovieFileAndReadHeader (some (mkHeader 128 64 15000 0 0))
        Player.initState).2.frameDelayMs = 67 ∧
    ((Sketch.readHeader ⟨mkHeader 128 64 15000 0 0, 0⟩).1.map
        (fun x => x.2.2)) = some 66 ∧
    (∀ d m fs dl, (Sketch.readHeader ⟨d, 0⟩).1 = some (m, fs, dl) → 1 ≤ dl) := by
  refine ⟨?_, by decide, by decide, by decide, by decide, by decide,
    fun d m fs dl hr => sketch_readHeader_delay_pos d m fs dl hr⟩
  unfold Player.fpsMilliToMs
  rw [if_neg (by omega)]
  exact div_add_half_eq_round 1000000 fm hfm

/-- Claim C3, counterexample to the claim as stated: the header
`128x64, fps_milli = 0` is valid, and the claim's formula ("`fps_milli`
treated as 15000 when zero", rounded) requires `frameDelayMs = 67`, but the
WiFi player's open yields 66. -/
theorem claimC3_counterexample :
    (Player.readHeaderFromFile ⟨mkHeader 128 64 0 0 0, 0⟩).1.isSome = true ∧
    (Player.openMovieFileAndReadHeader (some (mkHeader 128 64 0 0 0))
        Player.initState).2.frameDelayMs = 66 ∧
    (2 * 1000000 + 15000) / (2 * 15000) = 67 ∧ (66 : Nat) ≠ 67 := by
  decide

/-- Witness for `claimC3_frame_delay` at `fps_milli = 30000`. -/
theorem claimC3_witness :
    0 < 30000 ∧
    Player.fpsMilliToMs 30000 = (2 * 1000000 + 30000) / (2 * 30000) :=
  ⟨by decide, (claimC3_frame_delay 30000 (by decide)).1⟩

/-! ### Claim C6 -/

/-- Claim C6, amended. Ticks arriving before `frameDelayMs` has elapsed
(and ticks with the file closed) are no-ops leaving all session state
unchanged, but on every gated tick `lastMs` is assigned `now` *before* the
frame read is attempted, so ticks whose frame is dropped update `lastMs`
too — not only ticks that hand a frame to the sink. -/
theorem claimC6_lastTick (st : Player.PState) (fl : MFile) (now : Nat) :
    (st.f = none → Player.loop st now = (st, [], [])) ∧
    (st.f = some fl → sub32 now st.lastMs < st.frameDelayMs →
      Player.loop st now = (st, [], [])) ∧
    (st.f = some fl → ¬ sub32 now st.lastMs < st.frameDelayMs →
      (Player.loop st now).1.lastMs = now) := by
  refine ⟨fun h => Player.loop_closed st now h,
    fun h hg => Player.loop_early st fl now h hg,
    fun h hg => ?_⟩
  by_cases h1 : fl.data.length - fl.pos < st.frameSize
  · by_cases h2 : fl.data.length - (if st.hasHeader then 32 else 0) < st.frameSize
    · rw [Player.loop_short_short st fl now h hg h1 h2]
    · rw [Player.loop_short_full st fl now h hg h1 h2]
  · rw [Player.loop_full st fl now h hg h1]

/-- 10 bytes of garbage: opens in legacy mode (`frameSize = 1024`), and
every frame read comes up short. -/
def fileC6 : List Nat := List.replicate 10 7

/-- The player state after opening `fileC6`. -/
def stC6 : Player.PState :=
  (Player.openMovieFileAndReadHeader (some fileC6) Player.initState).2

/-- Claim C6, counterexample to the claim as stated: on a gated tick where
both reads are short (frame dropped, nothing rendered), `lastMs` is still
updated from 0 to `now = 100`, contradicting "ticks whose frame is dropped
leave lastTick unchanged". -/
theorem claimC6_counterexample :
    stC6.lastMs = 0 ∧
    ¬ sub32 100 stC6.lastMs < stC6.frameDelayMs ∧
    (Player.loop stC6 100).2.1 = [] ∧
    (Player.loop stC6 100).2.2 =
      [FOp.fread 1024 10, FOp.fseek 0, FOp.fread 1024 10] ∧
    (Player.loop stC6 100).1.lastMs = 100 := by
  decide

/-- Witness for `claimC6_lastTick`: an early tick at `now = 5` is a no-op,
and a gated tick at `now = 100` sets `lastMs` to 100. -/
theorem claimC6_witness :
    Player.loop stC6 5 = (stC6, [], []) ∧
    (Player.loop stC6 100).1.lastMs = 100 :=
  ⟨(claimC6_lastTick stC6 ⟨fileC6, 0⟩ 5).2.1 (by decide) (by decide),
   (claimC6_lastTick stC6 ⟨fileC6, 0⟩ 100).2.2 (by decide) (by decide)⟩

/-! ### Claim C9 -/

/-- `strncmp` over fewer bytes than `n` with a reference free of NUL bytes
in its first `n` positions never reports equality. -/
theorem strncmpEq_short : ∀ (n : Nat) (a r : List Nat), a.length < n →
    (∀ x ∈ r.take n, x ≠ 0) → strncmpEq a r n = false
  | 0, _, _, ha, _ => absurd ha (Nat.not_lt_zero _)
  | n + 1, [], r, _, _ => by cases r <;> rfl
  | n + 1, a0 :: as, [], _, _ => rfl
  | n + 1, a0 :: as, r0 :: rs, ha, hz => by
    have hr0 : r0 ≠ 0 := hz r0 (by simp)
    by_cases h : a0 = r0
    · subst h
      simp only [strncmpEq, ne_eq, not_true_eq_false, if_false, hr0, if_neg]
      exact strncmpEq_short n as rs (by simpa using ha)
        (fun x hx => hz x (by simp [hx]))
    · simp [strncmpEq, h]

/-- The decoded magic field is the file's first 8 bytes. -/
theorem decodeHeader_magic (d : List Nat) :
    (decodeHeader (d.take 32)).magic = d.take 8 := by
  simp [decodeHeader, List.take_take]

/-- The magic acceptance condition is exactly "the first 8 file bytes are
`SSD1306V` (the 9-character literal truncated to 8)". -/
theorem magic_check_iff (d : List Nat) :
    (strncmpEq (decodeHeader (d.take 32)).magic magicRef 8 = true ↔
      d.take 8 = [83, 83, 68, 49, 51, 48, 54, 86]) := by
  rw [decodeHeader_magic]
  by_cases hlen8 : 8 ≤ d.length
  · rw [strncmpEq_true_iff 8 (d.take 8) magicRef
      (by rw [List.length_take]; omega) (by decide) (by decide)]
    rw [List.take_take]
    norm_num
    constructor
    · intro h; rw [h]; rfl
    · intro h; rw [h]; rfl
  · constructor
    · intro h
      have := strncmpEq_short 8 (d.take 8) magicRef
        (by rw [List.length_take]; omega) (by decide)
      rw [this] at h
      cases h
    · intro h
      have h8 : (d.take 8).length = 8 := by rw [h]; rfl
      rw [List.length_take] at h8
      omega

/-- Claim C9: header detection compares only the first 8 bytes of the
9-character literal `"SSD1306V1"`, i.e. `"SSD1306V"`; for every 32-byte-or
longer file, decoding succeeds iff the first 8 bytes are `SSD1306V` and the
decoded height is a multiple of 8 — the ninth byte (offset 8) is
unconstrained, since it already belongs to the little-endian width field. -/
theorem claimC9_magic_first8 (d : List Nat) (h32 : 32 ≤ d.length) :
    ((Player.readHeaderFromFile ⟨d, 0⟩).1.isSome = true ↔
      (d.take 8 = [83, 83, 68, 49, 51, 48, 54, 86] ∧
        (decodeHeader (d.take 32)).height % 8 = 0)) ∧
    magicRef = [83, 83, 68, 49, 51, 48, 54, 86, 49] ∧
    (decodeHeader (d.take 32)).width = d.getD 8 0 + 256 * d.getD 9 0 := by
  refine ⟨?_, rfl, ?_⟩
  · rw [readHeaderFromFile_spec]
    dsimp only
    by_cases hc : d.take 8 = [83, 83, 68, 49, 51, 48, 54, 86] ∧
        (decodeHeader (d.take 32)).height % 8 = 0
    · rw [if_pos ⟨h32, (magic_check_iff d).mpr hc.1, hc.2⟩]
      simp [hc]
    · rw [if_neg ?_]
      · simpa using hc
      · intro hcond
        exact hc ⟨(magic_check_iff d).mp hcond.2.1, hcond.2.2⟩
  · unfold decodeHeader
    dsimp only
    rw [getD_take_lt d 32 8 (by omega), getD_take_lt d 32 9 (by omega)]

/-- Witness for `claimC9_magic_first8`: a 32-byte file whose first 8 bytes
are `SSD1306V` but whose ninth byte is 77 (not the `'1'` = 49 the full
9-character signature would demand) still passes the magic check. -/
theorem claimC9_witness :
    (32 : Nat) ≤ ([83, 83, 68, 49, 51, 48, 54, 86, 77, 0, 64, 0, 48, 117, 0,
        0, 0, 0, 0, 0, 0, 0, 0, 0, 0, 0, 0, 0, 0, 0, 0, 0] : List Nat).length ∧
    ((Player.readHeaderFromFile ⟨[83, 83, 68, 49, 51, 48, 54, 86, 77, 0, 64,
        0, 48, 117, 0, 0, 0, 0, 0, 0, 0, 0, 0, 0, 0, 0, 0, 0, 0, 0, 0, 0],
        0⟩).1.isSome = true ↔
      (([83, 83, 68, 49, 51, 48, 54, 86, 77, 0, 64, 0, 48, 117, 0, 0, 0, 0,
          0, 0, 0, 0, 0, 0, 0, 0, 0, 0, 0, 0, 0, 0] : List Nat).take 8 =
          [83, 83, 68, 49, 51, 48, 54, 86] ∧
        (decodeHeader (([83, 83, 68, 49, 51, 48, 54, 86, 77, 0, 64, 0, 48,
          117, 0, 0, 0, 0, 0, 0, 0, 0, 0, 0, 0, 0, 0, 0, 0, 0, 0, 0] :
          List Nat).take 32)).height % 8 = 0)) :=
  ⟨by decide,
   (claimC9_magic_first8 [83, 83, 68, 49, 51, 48, 54, 86, 77, 0, 64, 0, 48,
      117, 0, 0, 0, 0, 0, 0, 0, 0, 0, 0, 0, 0, 0, 0, 0, 0, 0, 0]
      (by decide)).1⟩

/-! ### Claim C4 -/

/-- Claim C4: whenever header decode fails (short header, magic mismatch,
or height not a multiple of 8) but the file opens, both players enter
legacy mode: width 128, height 64, `fps_milli` 15000, declared frame count
0, `frameSize = 1024`, `frameDelayMs = 66` (`1000/15`), `hasHeader = false`,
and the read cursor back at byte 0. The final conjunct characterises decode
failure as exactly the three listed conditions. -/
theorem claimC4_legacy_defaults (d : List Nat) (st : Player.PState)
    (hP : (Player.readHeaderFromFile ⟨d, 0⟩).1 = none)
    (hS : (Sketch.readHeader ⟨d, 0⟩).1 = none) :
    (Player.openMovieFileAndReadHeader (some d) st).1 = true ∧
    (Player.openMovieFileAndReadHeader (some d) st).2 =
      { st with
         f := some { data := d, pos := 0 }
         hdr := { st.hdr with
                   width := 128
                   height := 64
                   fps_milli := 15000
                   frame_count := 0
                   flags := 0 }
         frameSize := 1024
         frameDelayMs := 66
         hasHeader := false } ∧
    Sketch.setupOpen d =
      { fl := { data := d, pos := 0 }
        hdr := { magic := d.take 8
                 width := 128
                 height := 64
                 fps_milli := 15000
                 frame_count := 0
                 flags := 0 }
        frameSize := 1024
        frameDelayMs := 66
        hasHeader := false
        lastMs := 0 } ∧
    ((Player.readHeaderFromFile ⟨d, 0⟩).1 = none ↔
      (d.length < 32 ∨ d.take 8 ≠ [83, 83, 68, 49, 51, 48, 54, 86] ∨
        (decodeHeader (d.take 32)).height % 8 ≠ 0)) := by
  have hsnd : (Player.readHeaderFromFile ⟨d, 0⟩).2 =
      { data := d, pos := (d.take 32).length } := by
    rw [readHeaderFromFile_spec]
  refine ⟨?_, ?_, ?_, ?_⟩
  · simp only [Player.openMovieFileAndReadHeader]
    rw [hP]
  · simp only [Player.openMovieFileAndReadHeader]
    rw [hP, hsnd]
    simp [fseek]
  · simp only [Sketch.setupOpen]
    rw [hS, sketch_readHeader_snd]
    simp [fread, fseek]
  · rw [readHeaderFromFile_spec]
    dsimp only
    by_cases hc : 32 ≤ d.length
        ∧ strncmpEq (decodeHeader (d.take 32)).magic magicRef 8 = true
        ∧ (decodeHeader (d.take 32)).height % 8 = 0
    · rw [if_pos hc]
      simp only [iff_false_intro (Option.some_ne_none _), false_iff]
      push_neg
      exact ⟨hc.1, (magic_check_iff d).mp hc.2.1, hc.2.2⟩
    · rw [if_neg hc]
      simp only [true_iff]
      by_cases h1 : 32 ≤ d.length
      · by_cases h2 : d.take 8 = [83, 83, 68, 49, 51, 48, 54, 86]
        · refine Or.inr (Or.inr ?_)
          intro h3
          exact hc ⟨h1, (magic_check_iff d).mpr h2, h3⟩
        · exact Or.inr (Or.inl h2)
      · exact Or.inl (by omega)

/-- 33 bytes of garbage (wrong magic): decode fails, file opens, legacy
defaults apply. -/
def fileC4 : List Nat := List.replicate 33 9

/-- Witness for `claimC4_legacy_defaults` on `fileC4`. -/
theorem claimC4_witness :
    (Player.readHeaderFromFile ⟨fileC4, 0⟩).1 = none ∧
    (Sketch.readHeader ⟨fileC4, 0⟩).1 = none ∧
    (Player.openMovieFileAndReadHeader (some fileC4) Player.initState).2 =
      { Player.initState with
         f := some { data := fileC4, pos := 0 }
         hdr := { Player.initState.hdr with
                   width := 128
                   height := 64
                   fps_milli := 15000
                   frame_count := 0
                   flags := 0 }
         frameSize := 1024
         frameDelayMs := 66
         hasHeader := false } :=
  ⟨by decide, by decide,
   (claimC4_legacy_defaults fileC4 Player.initState (by decide)
      (by decide)).2.1⟩

/-! ### Claim C7 -/

/-- Claim C7: `frameSize = width * (height/8)` is derived once at open time
(from the decoded header; `128 * (64/8)` in legacy mode), every read the
playback loop issues requests exactly `frameSize` bytes, and a tick never
changes `frameSize`. -/
theorem claimC7_frameSize (d : List Nat) (h : MovieHeader)
    (st st2 : Player.PState) (now : Nat)
    (hd : (Player.readHeaderFromFile ⟨d, 0⟩).1 = some h) :
    (Player.openMovieFileAndReadHeader (some d) st).2.frameSize =
      h.width * (h.height / 8) ∧
    (∀ d2 st3, (Player.readHeaderFromFile ⟨d2, 0⟩).1 = none →
      (Player.openMovieFileAndReadHeader (some d2) st3).2.frameSize =
        128 * (64 / 8)) ∧
    (∀ req got, FOp.fread req got ∈ (Player.loop st2 now).2.2 →
      req = st2.frameSize) ∧
    (Player.loop st2 now).1.frameSize = st2.frameSize := by
  have hbranch : ∀ req got, FOp.fread req got ∈ (Player.loop st2 now).2.2 →
      req = st2.frameSize := by
    intro req got hmem
    rcases hf : st2.f with _ | fl
    · rw [Player.loop_closed st2 now hf] at hmem
      simp at hmem
    · by_cases hg : sub32 now st2.lastMs < st2.frameDelayMs
      · rw [Player.loop_early st2 fl now hf hg] at hmem
        simp at hmem
      · by_cases h1 : fl.data.length - fl.pos < st2.frameSize
        · by_cases h2 : fl.data.length - (if st2.hasHeader then 32 else 0)
              < st2.frameSize
          · rw [Player.loop_short_short st2 fl now hf hg h1 h2] at hmem
            simp only [List.mem_cons, List.mem_singleton] at hmem
            rcases hmem with h | h | h | h <;> simp_all
          · rw [Player.loop_short_full st2 fl now hf hg h1 h2] at hmem
            simp only [List.mem_cons, List.mem_singleton] at hmem
            rcases hmem with h | h | h | h <;> simp_all
        · rw [Player.loop_full st2 fl now hf hg h1] at hmem
          simp only [List.mem_cons, List.mem_singleton] at hmem
          rcases hmem with h | h <;> simp_all
  have hkeep : (Player.loop st2 now).1.frameSize = st2.frameSize := by
    rcases hf : st2.f with _ | fl
    · rw [Player.loop_closed st2 now hf]
    · by_cases hg : sub32 now st2.lastMs < st2.frameDelayMs
      · rw [Player.loop_early st2 fl now hf hg]
      · by_cases h1 : fl.data.length - fl.pos < st2.frameSize
        · by_cases h2 : fl.data.length - (if st2.hasHeader then 32 else 0)
              < st2.frameSize
          · rw [Player.loop_short_short st2 fl now hf hg h1 h2]
          · rw [Player.loop_short_full st2 fl now hf hg h1 h2]
        · rw [Player.loop_full st2 fl now hf hg h1]
  refine ⟨?_, ?_, hbranch, hkeep⟩
  · simp only [Player.openMovieFileAndReadHeader]
    rw [hd]
  · intro d2 st3 hnone
    simp only [Player.openMovieFileAndReadHeader]
    rw [hnone]

/-- A valid 128x64 header followed by one full frame. -/
def fileC7 : List Nat := mkHeader 128 64 15000 7 0 ++ List.replicate 1024 3

/-- The player state after opening `fileC7`. -/
def stC7 : Player.PState :=
  (Player.openMovieFileAndReadHeader (some fileC7) Player.initState).2

/-- Witness for `claimC7_frameSize` on `fileC7`: open derives
`frameSize = 128 * (64/8) = 1024` from the decoded header, and a gated tick
leaves `frameSize` unchanged. -/
theorem claimC7_witness :
    (Player.readHeaderFromFile ⟨fileC7, 0⟩).1 =
      some { magic := [83, 83, 68, 49, 51, 48, 54, 86]
             width := 128
             height := 64
             fps_milli := 15000
             frame_count := 7
             flags := 0 } ∧
    stC7.frameSize = 128 * (64 / 8) ∧
    (Player.loop stC7 100).1.frameSize = stC7.frameSize :=
  ⟨by decide,
   (claimC7_frameSize fileC7
      { magic := [83, 83, 68, 49, 51, 48, 54, 86]
        width := 128
        height := 64
        fps_milli := 15000
        frame_count := 7
        flags := 0 } Player.initState stC7 100 (by decide)).1,
   (claimC7_frameSize fileC7
      { magic := [83, 83, 68, 49, 51, 48, 54, 86]
        width := 128
        height := 64
        fps_milli := 15000
        frame_count := 7
        flags := 0 } Player.initState stC7 100 (by decide)).2.2.2⟩

/-! ### Claim C10 -/

/-- Claim C10: a header with matching magic and `height = 0` (or
`width = 0`) is accepted as valid (0 satisfies the `% 8` check), yields
`frameSize = 0` and `hasHeader = true`, and every gated tick then issues a
single zero-byte read which is treated as successful (no seek, no retry)
and hands zero tile bytes (total tile count 0) to the sink. -/
theorem claimC10_zero_dims (d : List Nat) (h : MovieHeader)
    (st : Player.PState)
    (hd : (Player.readHeaderFromFile ⟨d, 0⟩).1 = some h)
    (hz : h.width = 0 ∨ h.height = 0) :
    (Player.openMovieFileAndReadHeader (some d) st).2.hasHeader = true ∧
    (Player.openMovieFileAndReadHeader (some d) st).2.frameSize = 0 ∧
    (∀ (st2 : Player.PState) (fl2 : MFile) (now2 : Nat),
      st2.f = some fl2 → st2.frameSize = 0 →
      st2.hdr.width = h.width → st2.hdr.height = h.height →
      ¬ sub32 now2 st2.lastMs < st2.frameDelayMs →
      (Player.loop st2 now2).2.2 = [FOp.fread 0 0] ∧
      ((Player.loop st2 now2).2.1.map Tile.bytes).flatten = [] ∧
      ((Player.loop st2 now2).2.1.map Tile.cnt).sum = 0) := by
  refine ⟨?_, ?_, ?_⟩
  · simp only [Player.openMovieFileAndReadHeader]
    rw [hd]
  · simp only [Player.openMovieFileAndReadHeader]
    rw [hd]
    rcases hz with hw | hh
    · simp [hw]
    · simp [hh]
  · intro st2 fl2 now2 hf hfs hw2 hh2 hg
    have hfull : ¬ fl2.data.length - fl2.pos < st2.frameSize := by
      rw [hfs]
      exact Nat.not_lt_zero _
    rw [Player.loop_full st2 fl2 now2 hf hg hfull]
    refine ⟨by simp [hfs], ?_, ?_⟩
    · rcases hz with hw | hh
      · simp [drawFrame, hw2, hw, List.map_map, Function.comp_def]
      · simp [drawFrame, hh2, hh]
    · rcases hz with hw | hh
      · simp [drawFrame, hw2, hw, List.map_map, Function.comp_def]
      · simp [drawFrame, hh2, hh]

/-- A valid header with `height = 0` (magic matches, `0 % 8 = 0`). -/
def fileC10 : List Nat := mkHeader 128 0 15000 0 0

/-- The player state after opening `fileC10`. -/
def stC10 : Player.PState :=
  (Player.openMovieFileAndReadHeader (some fileC10) Player.initState).2

/-- The header `fileC10` decodes to. -/
def hdrC10 : MovieHeader :=
  { magic := [83, 83, 68, 49, 51, 48, 54, 86]
    width := 128
    height := 0
    fps_milli := 15000
    frame_count := 0
    flags := 0 }

/-- Witness for `claimC10_zero_dims`: `fileC10` (height 0) opens as a
valid headered stream with `frameSize = 0`, and the gated tick at
`now = 100` issues one zero-byte read and no tile bytes. -/
theorem claimC10_witness :
    (Player.readHeaderFromFile ⟨fileC10, 0⟩).1 = some hdrC10 ∧
    stC10.hasHeader = true ∧
    stC10.frameSize = 0 ∧
    ((Player.loop stC10 100).2.2 = [FOp.fread 0 0] ∧
      ((Player.loop stC10 100).2.1.map Tile.bytes).flatten = [] ∧
      ((Player.loop stC10 100).2.1.map Tile.cnt).sum = 0) :=
  ⟨by decide,
   (claimC10_zero_dims fileC10 hdrC10 Player.initState (by decide)
      (Or.inr (by decide))).1,
   (claimC10_zero_dims fileC10 hdrC10 Player.initState (by decide)
      (Or.inr (by decide))).2.1,
   (claimC10_zero_dims fileC10 hdrC10 Player.initState (by decide)
      (Or.inr (by decide))).2.2 stC10 ⟨fileC10, 32⟩ 100 (by decide)
      (by decide) (by decide) (by decide) (by decide)⟩

/-! ### Claim C1 -/

/-- The WiFi player's tick is independent of `hdr.flags`: running `loop`
with the flags byte replaced only replaces the flags byte in the result. -/
theorem player_loop_flags_irrel (st : Player.PState) (now g : Nat) :
    Player.loop { st with hdr := { st.hdr with flags := g } } now =
      ({ (Player.loop st now).1 with
          hdr := { (Player.loop st now).1.hdr with flags := g } },
        (Player.loop st now).2) := by
  obtain ⟨f, hdr, fs, delay, hasH, lastMs⟩ := st
  obtain ⟨mg, w, h, fm, fc, flg⟩ := hdr
  cases f with
  | none => rfl
  | some fl =>
    simp only [Player.loop]
    split_ifs <;> rfl

/-- The `part_000` tick is likewise independent of `hdr.flags`. -/
theorem sketch_loop_flags_irrel (s : Sketch.SState) (now g : Nat)
    (junk : List Nat) :
    Sketch.loop { s with hdr := { s.hdr with flags := g } } now junk =
      ({ (Sketch.loop s now junk).1 with
          hdr := { (Sketch.loop s now junk).1.hdr with flags := g } },
        (Sketch.loop s now junk).2) := by
  obtain ⟨fl, hdr, fs, delay, hasH, lastMs⟩ := s
  obtain ⟨mg, w, h, fm, fc, flg⟩ := hdr
  simp only [Sketch.loop]
  split_ifs <;> rfl

/-- Claim C1, amended. The `flags` byte (bit 0 = "inverted") is decoded and
stored but never applied during playback: on a successful frame read every
byte handed to `drawTile` equals the corresponding stored frame byte
unchanged, and the entire tick result is independent of the `flags` value
in both sketches (in `part_000` the inversion exists only as commented-out
code). The byte-identity conjunct is bounded by width, height < 2048:
at 2048 the `uint8_t` tile counters (`pages`, `tilesPerRow`) wrap to 0 and
the program hands fewer bytes than the stored frame. -/
theorem claimC1_flags_ignored (st : Player.PState) (fl : MFile) (now : Nat)
    (hf : st.f = some fl)
    (hg : ¬ sub32 now st.lastMs < st.frameDelayMs)
    (hfull : ¬ fl.data.length - fl.pos < st.frameSize)
    (hw : st.hdr.width % 8 = 0)
    (hwlt : st.hdr.width < 2048) (hhlt : st.hdr.height < 2048)
    (hs : st.frameSize = st.hdr.width * (st.hdr.height / 8)) :
    ((Player.loop st now).2.1.map Tile.bytes).flatten =
      (fl.data.drop fl.pos).take st.frameSize ∧
    (∀ (st3 : Player.PState) (now3 g : Nat),
      Player.loop { st3 with hdr := { st3.hdr with flags := g } } now3 =
        ({ (Player.loop st3 now3).1 with
            hdr := { (Player.loop st3 now3).1.hdr with flags := g } },
          (Player.loop st3 now3).2)) ∧
    (∀ (s : Sketch.SState) (now3 g : Nat) (junk : List Nat),
      Sketch.loop { s with hdr := { s.hdr with flags := g } } now3 junk =
        ({ (Sketch.loop s now3 junk).1 with
            hdr := { (Sketch.loop s now3 junk).1.hdr with flags := g } },
          (Sketch.loop s now3 junk).2)) := by
  refine ⟨?_, fun st3 now3 g => player_loop_flags_irrel st3 now3 g,
    fun s now3 g junk => sketch_loop_flags_irrel s now3 g junk⟩
  rw [Player.loop_full st fl now hf hg hfull]
  apply drawFrame_flatten _ _ _ hw hwlt hhlt
  rw [List.length_take, List.length_drop, ← hs]
  omega

/-- A 128x64, fps 30, `flags = 1` (inverted) stream with two all-zero
1024-byte frames. -/
def fileC1 : List Nat := mkHeader 128 64 30000 2 1 ++ List.replicate 2048 0

/-- The player state after opening `fileC1`. -/
def stC1 : Player.PState :=
  (Player.openMovieFileAndReadHeader (some fileC1) Player.initState).2

/-- Claim C1, counterexample to the claim as stated: for the claim's own
scenario (valid header, width 128, height 64, fps_milli 30000, flags bit 0
set, frameSize 1024, frameDelayMs 33), the first byte handed to `drawTile`
is 0 — equal to the stored frame byte 0, not its bitwise complement 255. -/
theorem claimC1_counterexample :
    stC1.hdr.flags % 2 = 1 ∧
    stC1.frameSize = 1024 ∧
    stC1.frameDelayMs = 33 ∧
    ((Player.loop stC1 1000).2.1.map Tile.bytes).flatten.getD 0 999 = 0 ∧
    fileC1.getD 32 999 = 0 ∧
    ¬ ((Player.loop stC1 1000).2.1.map Tile.bytes).flatten.getD 0 999 =
        255 - fileC1.getD 32 999 := by
  decide

/-- Witness for `claimC1_flags_ignored` on `fileC1` at `now = 1000`: the
flattened tile bytes are exactly the stored frame bytes. -/
theorem claimC1_witness :
    stC1.f = some ⟨fileC1, 32⟩ ∧
    ((Player.loop stC1 1000).2.1.map Tile.bytes).flatten =
      ((⟨fileC1, 32⟩ : MFile).data.drop (⟨fileC1, 32⟩ : MFile).pos).take
        stC1.frameSize := by
  have hlen : fileC1.length = 2080 := by
    simp [fileC1, mkHeader, magicRef, le16, le32]
  have hfull : ¬ (⟨fileC1, 32⟩ : MFile).data.length -
      (⟨fileC1, 32⟩ : MFile).pos < stC1.frameSize := by
    simp only [MFile.data, MFile.pos]
    rw [hlen]
    decide
  exact ⟨rfl, (claimC1_flags_ignored stC1 ⟨fileC1, 32⟩ 1000 rfl (by decide)
    hfull (by decide) (by decide) (by decide) (by decide)).1⟩

/-! ### Claim C2 -/

/-- Every `drawFrame` issues exactly `height / 8 % 256` `drawTile` calls
(the `pages` counter is `uint8_t`). -/
theorem drawFrame_length (w h : Nat) (buf : List Nat) :
    (drawFrame w h buf).length = h / 8 % 256 := by
  simp [drawFrame]

/-- Claim C2, amended. In `wifi-videoplayer.ino` the claim holds: a short
first read triggers exactly one seek to the first-frame offset (32 if
`hasHeader`, else 0) and exactly one retry read; if the retry is also short
nothing is rendered on that tick, and the next gated tick (its first read
resuming where the short retry left the cursor, hence short again) again
seeks to the first-frame offset and retries from there. In `part_000` the
retry's result is not checked: every gated tick issues `height / 8 % 256`
`drawTile` calls (the `pages` counter is `uint8_t`, so the page count
wraps modulo 256) even when both reads are short. -/
theorem claimC2_retry (st : Player.PState) (fl : MFile) (now : Nat)
    (hf : st.f = some fl)
    (hg : ¬ sub32 now st.lastMs < st.frameDelayMs)
    (hshort : fl.data.length - fl.pos < st.frameSize) :
    (Player.loop st now).2.2 =
      [FOp.fread st.frameSize ((fl.data.drop fl.pos).take st.frameSize).length,
       FOp.fseek (if st.hasHeader then 32 else 0),
       FOp.fread st.frameSize
         ((fl.data.drop (if st.hasHeader then 32 else 0)).take
           st.frameSize).length] ∧
    (fl.data.length - (if st.hasHeader then 32 else 0) < st.frameSize →
      (Player.loop st now).2.1 = []) ∧
    (fl.data.length - (if st.hasHeader then 32 else 0) < st.frameSize →
      ∀ now2, ¬ sub32 now2 now < st.frameDelayMs →
        (Player.loop (Player.loop st now).1 now2).2.2 =
          [FOp.fread st.frameSize
             ((fl.data.drop ((if st.hasHeader then 32 else 0) +
               ((fl.data.drop (if st.hasHeader then 32 else 0)).take
                 st.frameSize).length)).take st.frameSize).length,
           FOp.fseek (if st.hasHeader then 32 else 0),
           FOp.fread st.frameSize
             ((fl.data.drop (if st.hasHeader then 32 else 0)).take
               st.frameSize).length]) ∧
    (∀ (s : Sketch.SState) (now3 : Nat) (junk : List Nat),
      ¬ sub32 now3 s.lastMs < s.frameDelayMs →
      ((Sketch.loop s now3 junk).2).length = s.hdr.height / 8 % 256) := by
  refine ⟨?_, ?_, ?_, ?_⟩
  · by_cases h2 : fl.data.length - (if st.hasHeader then 32 else 0)
        < st.frameSize
    · rw [Player.loop_short_short st fl now hf hg hshort h2]
    · rw [Player.loop_short_full st fl now hf hg hshort h2]
  · intro h2
    rw [Player.loop_short_short st fl now hf hg hshort h2]
  · intro h2 now2 hg2
    rw [Player.loop_short_short st fl now hf hg hshort h2]
    have hshort2 : fl.data.length - ((if st.hasHeader then 32 else 0) +
        ((fl.data.drop (if st.hasHeader then 32 else 0)).take
          st.frameSize).length) < st.frameSize := by
      rw [List.length_take, List.length_drop]
      omega
    dsimp only
    rw [Player.loop_short_short
      { st with
         lastMs := now
         f := some { data := fl.data
                     pos := (if st.hasHeader then 32 else 0) +
                       ((fl.data.drop (if st.hasHeader then 32 else 0)).take
                         st.frameSize).length } }
      { data := fl.data
        pos := (if st.hasHeader then 32 else 0) +
          ((fl.data.drop (if st.hasHeader then 32 else 0)).take
            st.frameSize).length }
      now2 rfl hg2 hshort2 h2]
  · intro s now3 junk hg3
    simp only [Sketch.loop]
    rw [if_neg hg3]
    split_ifs <;> simp [drawFrame]

/-- A valid 128x64 header followed by only 10 frame bytes: every read is
short, even after the seek back to offset 32. -/
def fileC2 : List Nat := mkHeader 128 64 15000 0 0 ++ List.replicate 10 5

/-- The `part_000` session after `setup()` on `fileC2`. -/
def sC2 : Sketch.SState := Sketch.setupOpen fileC2

/-- Claim C2, counterexample to the claim as stated: in `part_000`, on a
gated tick where the first read is short (10 of 1024 bytes) and the retry
from offset 32 is equally short, 8 `drawTile` calls are still issued —
"nothing is rendered on that tick" is false for this sketch. -/
theorem claimC2_counterexample :
    sC2.hasHeader = true ∧
    sC2.frameSize = 1024 ∧
    sC2.fl.pos = 32 ∧
    ((fileC2.drop 32).take 1024).length < 1024 ∧
    ¬ sub32 100 sC2.lastMs < sC2.frameDelayMs ∧
    (Sketch.loop sC2 100 (List.replicate 1024 0)).2.length = 8 ∧
    (Sketch.loop sC2 100 (List.replicate 1024 0)).2 ≠ [] := by
  decide

/-- A valid 128x64 header followed by only 100 frame bytes, for the WiFi
player. -/
def fileC2w : List Nat := mkHeader 128 64 15000 0 0 ++ List.replicate 100 9

/-- The WiFi player state after opening `fileC2w`. -/
def stC2 : Player.PState :=
  (Player.openMovieFileAndReadHeader (some fileC2w) Player.initState).2

/-- Witness for `claimC2_retry` on `fileC2w` at `now = 100`: both reads are
short and the tick renders nothing. -/
theorem claimC2_witness :
    (⟨fileC2w, 32⟩ : MFile).data.length - (⟨fileC2w, 32⟩ : MFile).pos <
      stC2.frameSize ∧
    (Player.loop stC2 100).2.1 = [] :=
  ⟨by decide,
   (claimC2_retry stC2 ⟨fileC2w, 32⟩ 100 rfl (by decide) (by decide)).2.1
     (by decide)⟩

/-! ### Claim C5 -/

/-- Any event other than `uploadEnd` keeps the player's file handle closed
and renders nothing. -/
theorem handleEv_blank (s : Player.SysState) (e : Player.Ev)
    (hfnone : s.ps.f = none) (hne : e ≠ Player.Ev.uploadEnd) :
    (Player.handleEv s e).1.ps.f = none ∧ (Player.handleEv s e).2 = [] := by
  cases e with
  | tick now =>
    simp only [Player.handleEv]
    rw [Player.loop_closed s.ps now hfnone]
    exact ⟨hfnone, rfl⟩
  | uploadStart => exact ⟨rfl, rfl⟩
  | uploadWrite c => exact ⟨hfnone, rfl⟩
  | uploadEnd => exact absurd rfl hne

/-- While the file handle is closed, any `uploadEnd`-free event sequence
renders nothing and leaves the handle closed. -/
theorem runEvs_blank : ∀ (evs : List Player.Ev) (s : Player.SysState),
    s.ps.f = none → (∀ e ∈ evs, e ≠ Player.Ev.uploadEnd) →
    (Player.runEvs s evs).2 = [] ∧ (Player.runEvs s evs).1.ps.f = none
  | [], s, h, _ => ⟨rfl, h⟩
  | e :: es, s, h, hno => by
    have h1 := handleEv_blank s e h (hno e (by simp))
    have ih := runEvs_blank es (Player.handleEv s e).1 h1.1
      (fun x hx => hno x (by simp [hx]))
    simp only [Player.runEvs]
    exact ⟨by rw [h1.2, ih.1]; rfl, ih.2⟩

/-- Claim C5: `UPLOAD_FILE_START` closes the scheduler's stream handle
immediately (before any replacement byte is written), it renders nothing
itself, and for any following event sequence containing no
`UPLOAD_FILE_END` (ticks and upload chunks in any interleaving) no
`drawTile` call is issued and the handle stays closed — playback is blank
until the end-of-upload reopen. -/
theorem claimC5_blank_during_replace (s0 : Player.SysState)
    (evs : List Player.Ev)
    (hno : ∀ e ∈ evs, e ≠ Player.Ev.uploadEnd) :
    (Player.handleEv s0 Player.Ev.uploadStart).2 = [] ∧
    (Player.handleEv s0 Player.Ev.uploadStart).1.ps.f = none ∧
    (Player.runEvs (Player.handleEv s0 Player.Ev.uploadStart).1 evs).2 = [] ∧
    (Player.runEvs (Player.handleEv s0 Player.Ev.uploadStart).1 evs).1.ps.f
      = none := by
  have h := runEvs_blank evs (Player.handleEv s0 Player.Ev.uploadStart).1
    rfl hno
  exact ⟨rfl, rfl, h.1, h.2⟩

/-- A system state mid-playback: a 4-byte legacy file is open and playing. -/
def sysC5 : Player.SysState :=
  { ps := { f := some ⟨[1, 2, 3, 4], 0⟩
            hdr := { magic := List.replicate 8 0
                     width := 128
                     height := 64
                     fps_milli := 15000
                     frame_count := 0
                     flags := 0 }
            frameSize := 4
            frameDelayMs := 5
            hasHeader := false
            lastMs := 0 }
    movieData := some [1, 2, 3, 4]
    uploadFile := none }

/-- Ticks and upload chunks after the begin-replace signal, with no end
signal. -/
def evsC5 : List Player.Ev :=
  [Player.Ev.tick 100, Player.Ev.uploadWrite [9, 9], Player.Ev.tick 200]

/-- Witness for `claimC5_blank_during_replace` on `sysC5` and `evsC5`. -/
theorem claimC5_witness :
    (Player.runEvs (Player.handleEv sysC5 Player.Ev.uploadStart).1 evsC5).2
      = [] ∧
    (Player.runEvs (Player.handleEv sysC5 Player.Ev.uploadStart).1
      evsC5).1.ps.f = none :=
  ⟨(claimC5_blank_during_replace sysC5 evsC5 (by decide)).2.2.1,
   (claimC5_blank_during_replace sysC5 evsC5 (by decide)).2.2.2⟩

/-! ### Claim C8 -/

/-- Bytes strictly inside the first 16 header bytes are unaffected by the
`frame_count` field (bytes 16..19). -/
theorem take32_getD_lt16 (p x s : List Nat) (hp : p.length = 16) (i : Nat)
    (hi : i < 16) :
    ((p ++ (x ++ s)).take 32).getD i 0 = p.getD i 0 := by
  rw [getD_take_lt _ 32 i (by omega), getD_append_lt _ _ i (by omega)]

/-- Byte 20 (flags) reads from the suffix after the `frame_count` field. -/
theorem take32_getD20 (p x s : List Nat) (hp : p.length = 16)
    (hx : x.length = 4) :
    ((p ++ (x ++ s)).take 32).getD 20 0 = s.getD 0 0 := by
  rw [getD_take_lt _ 32 20 (by omega), getD_append_ge p (x ++ s) 20 (by omega),
    getD_append_ge x s (20 - p.length) (by omega)]
  congr 1
  omega

/-- The 8 magic bytes come entirely from the first 16 header bytes. -/
theorem take32_magic8 (p x s : List Nat) (hp : p.length = 16) :
    ((p ++ (x ++ s)).take 32).take 8 = p.take 8 := by
  have hmin : (8 : Nat) ⊓ 32 = 8 := by norm_num
  rw [List.take_take, hmin]
  exact List.take_append_of_le_length (by omega)

/-- Two headers that differ only in the 4 `frame_count` bytes decode to the
same magic, width, height, fps_milli and flags. -/
theorem decode_eq_except_fc (p fc fc' s : List Nat) (hp : p.length = 16)
    (hfc : fc.length = 4) (hfc' : fc'.length = 4) :
    (decodeHeader ((p ++ (fc ++ s)).take 32)).magic =
      (decodeHeader ((p ++ (fc' ++ s)).take 32)).magic ∧
    (decodeHeader ((p ++ (fc ++ s)).take 32)).width =
      (decodeHeader ((p ++ (fc' ++ s)).take 32)).width ∧
    (decodeHeader ((p ++ (fc ++ s)).take 32)).height =
      (decodeHeader ((p ++ (fc' ++ s)).take 32)).height ∧
    (decodeHeader ((p ++ (fc ++ s)).take 32)).fps_milli =
      (decodeHeader ((p ++ (fc' ++ s)).take 32)).fps_milli ∧
    (decodeHeader ((p ++ (fc ++ s)).take 32)).flags =
      (decodeHeader ((p ++ (fc' ++ s)).take 32)).flags := by
  unfold decodeHeader
  dsimp only
  refine ⟨?_, ?_, ?_, ?_, ?_⟩
  · rw [take32_magic8 p fc s hp, take32_magic8 p fc' s hp]
  · rw [take32_getD_lt16 p fc s hp 8 (by omega),
      take32_getD_lt16 p fc' s hp 8 (by omega),
      take32_getD_lt16 p fc s hp 9 (by omega),
      take32_getD_lt16 p fc' s hp 9 (by omega)]
  · rw [take32_getD_lt16 p fc s hp 10 (by omega),
      take32_getD_lt16 p fc' s hp 10 (by omega),
      take32_getD_lt16 p fc s hp 11 (by omega),
      take32_getD_lt16 p fc' s hp 11 (by omega)]
  · rw [take32_getD_lt16 p fc s hp 12 (by omega),
      take32_getD_lt16 p fc' s hp 12 (by omega),
      take32_getD_lt16 p fc s hp 13 (by omega),
      take32_getD_lt16 p fc' s hp 13 (by omega),
      take32_getD_lt16 p fc s hp 14 (by omega),
      take32_getD_lt16 p fc' s hp 14 (by omega),
      take32_getD_lt16 p fc s hp 15 (by omega),
      take32_getD_lt16 p fc' s hp 15 (by omega)]
  · rw [take32_getD20 p fc s hp hfc, take32_getD20 p fc' s hp hfc']

/-- Dropping at or past byte 20 erases the difference between the two
streams. -/
theorem drop_eq_except_fc (p fc fc' s : List Nat) (hp : p.length = 16)
    (hfc : fc.length = 4) (hfc' : fc'.length = 4) (pos : Nat)
    (h20 : 20 ≤ pos) :
    (p ++ (fc ++ s)).drop pos = (p ++ (fc' ++ s)).drop pos := by
  rw [← List.append_assoc, ← List.append_assoc]
  have h1 : pos = (p ++ fc).length + (pos - 20) := by
    rw [List.length_append, hp, hfc]; omega
  have h2 : pos = (p ++ fc').length + (pos - 20) := by
    rw [List.length_append, hp, hfc']; omega
  conv_lhs => rw [h1, List.drop_append]
  conv_rhs => rw [h2, List.drop_append]

/-- The simulation relation for frame-count noninterference: two player
states agree on everything the tick reads — width, height, `frameSize`,
`frameDelayMs`, `hasHeader` (both headered), `lastMs`, the cursor, and all
file bytes from offset 20 on (only the `frame_count` bytes 16..19 and
earlier-header bytes may differ; the cursor never goes below 32). -/
def PlayerFcRel (st1 st2 : Player.PState) : Prop :=
  st1.hdr.width = st2.hdr.width ∧
  st1.hdr.height = st2.hdr.height ∧
  st1.frameSize = st2.frameSize ∧
  st1.frameDelayMs = st2.frameDelayMs ∧
  st1.hasHeader = true ∧
  st2.hasHeader = true ∧
  st1.lastMs = st2.lastMs ∧
  ∃ fl1 fl2 : MFile, st1.f = some fl1 ∧ st2.f = some fl2 ∧
    fl1.pos = fl2.pos ∧ 20 ≤ fl1.pos ∧
    (∀ q, 20 ≤ q → fl1.data.drop q = fl2.data.drop q)

/-- One tick preserves `PlayerFcRel` and produces identical `drawTile`
calls and file operations on both sides. -/
theorem loop_fcRel (st1 st2 : Player.PState) (n : Nat)
    (hr : PlayerFcRel st1 st2) :
    (Player.loop st1 n).2 = (Player.loop st2 n).2 ∧
    PlayerFcRel (Player.loop st1 n).1 (Player.loop st2 n).1 := by
  obtain ⟨hw, hh, hfs, hdel, hH1, hH2, hlast, fl1, fl2, hf1, hf2, hpos,
    hp20, hdata⟩ := hr
  by_cases hg : sub32 n st1.lastMs < st1.frameDelayMs
  · have hg2 : sub32 n st2.lastMs < st2.frameDelayMs := by
      rw [← hlast, ← hdel]; exact hg
    rw [Player.loop_early st1 fl1 n hf1 hg, Player.loop_early st2 fl2 n hf2 hg2]
    exact ⟨rfl, hw, hh, hfs, hdel, hH1, hH2, hlast, fl1, fl2, hf1, hf2,
      hpos, hp20, hdata⟩
  · have hg2 : ¬ sub32 n st2.lastMs < st2.frameDelayMs := by
      rw [← hlast, ← hdel]; exact hg
    have hdropeq : fl1.data.drop fl1.pos = fl2.data.drop fl2.pos := by
      rw [← hpos]; exact hdata fl1.pos hp20
    have hd32 : fl1.data.drop 32 = fl2.data.drop 32 := hdata 32 (by omega)
    have hsub : fl1.data.length - fl1.pos = fl2.data.length - fl2.pos := by
      have hcg := congrArg List.length hdropeq
      rw [List.length_drop, List.length_drop] at hcg
      exact hcg
    have hsub32 : fl1.data.length - 32 = fl2.data.length - 32 := by
      have hcg := congrArg List.length hd32
      rw [List.length_drop, List.length_drop] at hcg
      exact hcg
    have hb1 : (fl1.data.drop fl1.pos).take st1.frameSize =
        (fl2.data.drop fl2.pos).take st2.frameSize := by
      rw [hdropeq, hfs]
    have hb2 : (fl1.data.drop 32).take st1.frameSize =
        (fl2.data.drop 32).take st2.frameSize := by
      rw [hd32, hfs]
    have e1 := congrArg List.length hb1
    have e2 := congrArg List.length hb2
    by_cases hs1 : fl1.data.length - fl1.pos < st1.frameSize
    · have hs2 : fl2.data.length - fl2.pos < st2.frameSize := by
        rw [← hsub, ← hfs]; exact hs1
      by_cases ht1 : fl1.data.length - 32 < st1.frameSize
      · have ht1' : fl1.data.length - (if st1.hasHeader then 32 else 0)
            < st1.frameSize := by
          rw [hH1]; simpa using ht1
        have ht2' : fl2.data.length - (if st2.hasHeader then 32 else 0)
            < st2.frameSize := by
          rw [hH2]; simpa using (show fl2.data.length - 32 < st2.frameSize by
            rw [← hsub32, ← hfs]; exact ht1)
        rw [Player.loop_short_short st1 fl1 n hf1 hg hs1 ht1',
          Player.loop_short_short st2 fl2 n hf2 hg2 hs2 ht2']
        constructor
        · simp only [hfs, hH1, hH2, if_true]
          rw [hdropeq, hd32]
        · refine ⟨hw, hh, hfs, hdel, hH1, hH2, rfl, _, _, rfl, rfl, ?_,
            ?_, hdata⟩
          · simp only [hH1, hH2, if_true]
            rw [e2]
          · simp only [hH1, if_true]
            omega
      · have ht1' : ¬ fl1.data.length - (if st1.hasHeader then 32 else 0)
            < st1.frameSize := by
          rw [hH1]; simpa using ht1
        have ht2' : ¬ fl2.data.length - (if st2.hasHeader then 32 else 0)
            < st2.frameSize := by
          rw [hH2]; simpa using (show ¬ fl2.data.length - 32 < st2.frameSize by
            rw [← hsub32, ← hfs]; exact ht1)
        rw [Player.loop_short_full st1 fl1 n hf1 hg hs1 ht1',
          Player.loop_short_full st2 fl2 n hf2 hg2 hs2 ht2']
        constructor
        · simp only [hfs, hH1, hH2, if_true]
          rw [hw, hh, hdropeq, hd32]
        · refine ⟨hw, hh, hfs, hdel, hH1, hH2, rfl, _, _, rfl, rfl, ?_,
            ?_, hdata⟩
          · simp only [hH1, hH2, if_true]
            rw [e2]
          · simp only [hH1, if_true]
            omega
    · have hs2 : ¬ fl2.data.length - fl2.pos < st2.frameSize := by
        rw [← hsub, ← hfs]; exact hs1
      rw [Player.loop_full st1 fl1 n hf1 hg hs1,
        Player.loop_full st2 fl2 n hf2 hg2 hs2]
      constructor
      · rw [hfs, hw, hh, hdropeq]
      · refine ⟨hw, hh, hfs, hdel, hH1, hH2, rfl, _, _, rfl, rfl, ?_, ?_,
          hdata⟩
        · rw [e1, hpos]
        · dsimp only
          omega

/-- `PlayerFcRel` is preserved by any tick sequence, with identical outputs. -/
theorem runTicks_fcRel : ∀ (nows : List Nat) (st1 st2 : Player.PState),
    PlayerFcRel st1 st2 →
    (Player.runTicks st1 nows).2 = (Player.runTicks st2 nows).2 ∧
    PlayerFcRel (Player.runTicks st1 nows).1 (Player.runTicks st2 nows).1
  | [], _, _, hr => ⟨rfl, hr⟩
  | n :: ns, st1, st2, hr => by
    have hstep := loop_fcRel st1 st2 n hr
    have ih := runTicks_fcRel ns (Player.loop st1 n).1 (Player.loop st2 n).1
      hstep.2
    have t1 := congrArg Prod.fst hstep.1
    have o1 := congrArg Prod.snd hstep.1
    have t2 := congrArg Prod.fst ih.1
    have o2 := congrArg Prod.snd ih.1
    simp only [Player.runTicks]
    exact ⟨by rw [t1, o1, t2, o2], ih.2⟩

/-- Claim C8: playback is independent of the header's `frame_count` field.
For two streams byte-for-byte identical except for the four `frame_count`
bytes (offsets 16..19), if one has a valid header so does the other, and
from open on, any tick sequence produces identical `drawTile` calls,
identical file operations (reads and seeks), identical `lastMs` timing,
identical `frameSize`/`frameDelayMs`, and identical cursor positions. -/
theorem claimC8_frame_count_noninterference (p fc fc2 s : List Nat)
    (st : Player.PState) (nows : List Nat)
    (hp : p.length = 16) (hfc : fc.length = 4) (hfc2 : fc2.length = 4)
    (hv : (Player.readHeaderFromFile ⟨p ++ (fc ++ s), 0⟩).1.isSome = true) :
    (Player.readHeaderFromFile ⟨p ++ (fc2 ++ s), 0⟩).1.isSome = true ∧
    (Player.runTicks (Player.openMovieFileAndReadHeader
        (some (p ++ (fc ++ s))) st).2 nows).2 =
      (Player.runTicks (Player.openMovieFileAndReadHeader
        (some (p ++ (fc2 ++ s))) st).2 nows).2 ∧
    (Player.runTicks (Player.openMovieFileAndReadHeader
        (some (p ++ (fc ++ s))) st).2 nows).1.lastMs =
      (Player.runTicks (Player.openMovieFileAndReadHeader
        (some (p ++ (fc2 ++ s))) st).2 nows).1.lastMs ∧
    (Player.runTicks (Player.openMovieFileAndReadHeader
        (some (p ++ (fc ++ s))) st).2 nows).1.frameSize =
      (Player.runTicks (Player.openMovieFileAndReadHeader
        (some (p ++ (fc2 ++ s))) st).2 nows).1.frameSize ∧
    (Player.runTicks (Player.openMovieFileAndReadHeader
        (some (p ++ (fc ++ s))) st).2 nows).1.frameDelayMs =
      (Player.runTicks (Player.openMovieFileAndReadHeader
        (some (p ++ (fc2 ++ s))) st).2 nows).1.frameDelayMs ∧
    Option.map MFile.pos (Player.runTicks (Player.openMovieFileAndReadHeader
        (some (p ++ (fc ++ s))) st).2 nows).1.f =
      Option.map MFile.pos (Player.runTicks (Player.openMovieFileAndReadHeader
        (some (p ++ (fc2 ++ s))) st).2 nows).1.f := by
  have hdec := decode_eq_except_fc p fc fc2 s hp hfc hfc2
  have hlen : (p ++ (fc ++ s)).length = (p ++ (fc2 ++ s)).length := by
    simp [hfc, hfc2]
  -- extract the validity condition of the first stream
  rw [readHeaderFromFile_spec] at hv
  dsimp only at hv
  by_cases hc : 32 ≤ (p ++ (fc ++ s)).length
      ∧ strncmpEq (decodeHeader ((p ++ (fc ++ s)).take 32)).magic magicRef 8
        = true
      ∧ (decodeHeader ((p ++ (fc ++ s)).take 32)).height % 8 = 0
  swap
  · rw [if_neg hc] at hv
    simp at hv
  have hc2 : 32 ≤ (p ++ (fc2 ++ s)).length
      ∧ strncmpEq (decodeHeader ((p ++ (fc2 ++ s)).take 32)).magic magicRef 8
        = true
      ∧ (decodeHeader ((p ++ (fc2 ++ s)).take 32)).height % 8 = 0 := by
    refine ⟨by omega, ?_, by rw [← hdec.2.2.1]; exact hc.2.2⟩
    rw [← hdec.1]
    exact hc.2.1
  have hr1 : (Player.readHeaderFromFile ⟨p ++ (fc ++ s), 0⟩).1 =
      some (decodeHeader ((p ++ (fc ++ s)).take 32)) := by
    rw [readHeaderFromFile_spec]
    dsimp only
    rw [if_pos hc]
  have hr2 : (Player.readHeaderFromFile ⟨p ++ (fc2 ++ s), 0⟩).1 =
      some (decodeHeader ((p ++ (fc2 ++ s)).take 32)) := by
    rw [readHeaderFromFile_spec]
    dsimp only
    rw [if_pos hc2]
  have hsnd1 : (Player.readHeaderFromFile ⟨p ++ (fc ++ s), 0⟩).2 =
      { data := p ++ (fc ++ s), pos := ((p ++ (fc ++ s)).take 32).length } := by
    rw [readHeaderFromFile_spec]
  have hsnd2 : (Player.readHeaderFromFile ⟨p ++ (fc2 ++ s), 0⟩).2 =
      { data := p ++ (fc2 ++ s), pos := ((p ++ (fc2 ++ s)).take 32).length } := by
    rw [readHeaderFromFile_spec]
  refine ⟨by rw [hr2]; rfl, ?_⟩
  have hopen1 : (Player.openMovieFileAndReadHeader (some (p ++ (fc ++ s)))
      st).2 =
      { st with
         f := some { data := p ++ (fc ++ s), pos := 32 }
         hdr := decodeHeader ((p ++ (fc ++ s)).take 32)
         frameSize := (decodeHeader ((p ++ (fc ++ s)).take 32)).width *
           ((decodeHeader ((p ++ (fc ++ s)).take 32)).height / 8)
         frameDelayMs := Player.fpsMilliToMs
           (decodeHeader ((p ++ (fc ++ s)).take 32)).fps_milli
         hasHeader := true } := by
    simp only [Player.openMovieFileAndReadHeader]
    rw [hr1, hsnd1]
    simp [fseek]
  have hopen2 : (Player.openMovieFileAndReadHeader (some (p ++ (fc2 ++ s)))
      st).2 =
      { st with
         f := some { data := p ++ (fc2 ++ s), pos := 32 }
         hdr := decodeHeader ((p ++ (fc2 ++ s)).take 32)
         frameSize := (decodeHeader ((p ++ (fc2 ++ s)).take 32)).width *
           ((decodeHeader ((p ++ (fc2 ++ s)).take 32)).height / 8)
         frameDelayMs := Player.fpsMilliToMs
           (decodeHeader ((p ++ (fc2 ++ s)).take 32)).fps_milli
         hasHeader := true } := by
    simp only [Player.openMovieFileAndReadHeader]
    rw [hr2, hsnd2]
    simp [fseek]
  have hrel : PlayerFcRel
      (Player.openMovieFileAndReadHeader (some (p ++ (fc ++ s))) st).2
      (Player.openMovieFileAndReadHeader (some (p ++ (fc2 ++ s))) st).2 := by
    rw [hopen1, hopen2]
    refine ⟨hdec.2.1, hdec.2.2.1, ?_, ?_, rfl, rfl, rfl, _, _, rfl, rfl,
      rfl, by dsimp only; omega,
      fun q hq => drop_eq_except_fc p fc fc2 s hp hfc hfc2 q hq⟩
    · rw [hdec.2.1, hdec.2.2.1]
    · rw [hdec.2.2.2.1]
  have hrun := runTicks_fcRel nows _ _ hrel
  obtain ⟨g1, g2, hgf1, hgf2, hgpos, -, -⟩ := hrun.2.2.2.2.2.2.2.2
  exact ⟨hrun.1, hrun.2.2.2.2.2.2.2.1, hrun.2.2.2.1, hrun.2.2.2.2.1,
    by rw [hgf1, hgf2]; simp [hgpos]⟩

/-- First 16 header bytes for an 8x8, 15 fps stream. -/
def pC8 : List Nat := magicRef.take 8 ++ le16 8 ++ le16 8 ++ le32 15000

/-- A declared frame count of 5. -/
def fcC8 : List Nat := le32 5

/-- A declared frame count of 900. -/
def fcC8b : List Nat := le32 900

/-- Flags, reserved bytes, and two 8-byte frames. -/
def sC8 : List Nat := 0 :: (List.replicate 11 0 ++ List.replicate 16 3)

/-- Witness for `claimC8_frame_count_noninterference`: two ticks on two
streams differing only in `frame_count` (5 vs 900) produce identical
outputs. -/
theorem claimC8_witness :
    pC8.length = 16 ∧ fcC8.length = 4 ∧ fcC8b.length = 4 ∧
    (Player.readHeaderFromFile ⟨pC8 ++ (fcC8 ++ sC8), 0⟩).1.isSome = true ∧
    (Player.runTicks (Player.openMovieFileAndReadHeader
        (some (pC8 ++ (fcC8 ++ sC8))) Player.initState).2 [100, 200]).2 =
      (Player.runTicks (Player.openMovieFileAndReadHeader
        (some (pC8 ++ (fcC8b ++ sC8))) Player.initState).2 [100, 200]).2 :=
  ⟨by decide, by decide, by decide, by decide,
   (claimC8_frame_count_noninterference pC8 fcC8 fcC8b sC8 Player.initState
      [100, 200] (by decide) (by decide) (by decide) (by decide)).2.1⟩
